import Mathlib

/-!
Verification of the voice-streaming client of the-smart-scheduler
(frontend `WebSocketVoiceManager`, converged queue-based iteration).

The manager is a single-threaded, callback-driven JavaScript class.  We embed
it as a state record `VMState` mirroring the fields set in the constructor,
plus one extra field `loop` recording the suspension point of the (single)
asynchronous `playAudioQueue` task: the loop suspends at `decodeAudioData`
(`LoopPos.decoding`), at `playAudioBuffer`'s `onended` wait
(`LoopPos.playing`), and at the 50 ms poll (`LoopPos.sleeping`).  Resumption
of the suspended loop at one such point is one `loopStep`; other handlers
(`handleAudioChunk`, `handleMessage`, `stopAudioPlayback`) run to completion
between loop steps, exactly as in the JavaScript event loop.

`decodeAudioData` is opaque browser functionality; whether it succeeds on a
given frame is modelled by the frame's `decodable` field.  A `loopStep` emits
`PlayEvent.start f` at the instant `source.start(0)` is reached for a decoded
frame `f`, and `PlayEvent.finish f` when that unit's `onended` fires, so that
ordering and non-overlap of audible playback are visible in the event trace.

The turn-taking phase of the spec has no explicit variable in the source
(the code drives the UI directly), so `VMState.phase` is a ghost field
updated by `handleMessage` following the spec's transition table; every other
field update in the definitions below is taken from the source.
-/

namespace SmartScheduler

/-- An inbound binary audio frame. `data` identifies the bytes; `decodable`
models whether the opaque `audioContext.decodeAudioData` succeeds on it. -/
structure AudioFrame where
  data : Nat
  decodable : Bool
deriving DecidableEq, Repr

/-- Suspension point of the single `playAudioQueue` async task.  `idle` means
no loop task is live (never started, or the `finally` block has run). -/
inductive LoopPos where
  | idle
  | checkTop
  | decoding (f : AudioFrame)
  | playing (f : AudioFrame)
  | sleeping
deriving DecidableEq, Repr

/-- Turn-taking phase of the session (ghost state from the spec's state
machine; the source has no explicit phase variable). -/
inductive Phase where
  | phIdle
  | phUserSpeaking
  | phThinking
  | phAISpeaking
  | phInterrupted
deriving DecidableEq, Repr

/-- State of the `WebSocketVoiceManager` instance: the constructor fields of
the class, plus the `loop` suspension point and the ghost `phase`. -/
structure VMState where
  audioQueue : List AudioFrame
  isPlayingAudio : Bool
  streamingComplete : Bool
  currentAudioSource : Option AudioFrame
  isConnected : Bool
  responseStartTime : Option Nat
  lastSpeechEndTime : Option Nat
  isUserSpeaking : Bool
  loop : LoopPos
  phase : Phase
deriving DecidableEq, Repr

/-- Constructor state of the class: empty queue, nothing playing, backend not
done, no source, disconnected, no timestamps, no loop task. -/
def initialState : VMState :=
  { audioQueue := []
    isPlayingAudio := false
    streamingComplete := false
    currentAudioSource := none
    isConnected := false
    responseStartTime := none
    lastSpeechEndTime := none
    isUserSpeaking := false
    loop := LoopPos.idle
    phase := Phase.phIdle }

/-- Observable playback events: a decoded unit becomes audible
(`source.start(0)`), or its `onended` callback fires. -/
inductive PlayEvent where
  | start (f : AudioFrame)
  | finish (f : AudioFrame)
deriving DecidableEq, Repr

/-- Frames whose playback starts in a trace, in trace order. -/
def startsOf (l : List PlayEvent) : List AudioFrame :=
  l.filterMap fun e =>
    match e with
    | PlayEvent.start f => some f
    | PlayEvent.finish _ => none

/-- stopAudioPlayback: stops the current source (if any), clears the queue,
sets `streamingComplete` to force the loop to exit, clears `isPlayingAudio`.
It does not touch the suspended loop task itself. -/
def stopAudioPlayback (s : VMState) : VMState :=
  { s with
    currentAudioSource := none
    audioQueue := []
    streamingComplete := true
    isPlayingAudio := false }

/-- playAudioQueue up to its first suspension: returns immediately if the
`isPlayingAudio` guard is set, otherwise marks the flag and enters the loop
(the loop body itself advances via `loopStep`). -/
def playAudioQueue (s : VMState) : VMState :=
  if s.isPlayingAudio then s
  else { s with isPlayingAudio := true, loop := LoopPos.checkTop }

/-- handleAudioChunk: unconditionally push the frame onto `audioQueue`; start
the playback loop if it is not already running. -/
def handleAudioChunk (s : VMState) (f : AudioFrame) : VMState :=
  let s1 := { s with audioQueue := s.audioQueue ++ [f] }
  if s1.isPlayingAudio then s1 else playAudioQueue s1

/-- One resumption of the suspended `playAudioQueue` task, together with the
playback events it makes audible.  At the top of the `while` it either shifts
the head frame and awaits its decode, or (queue empty) exits when
`streamingComplete` is set and otherwise sleeps 50 ms.  A resolved decode
immediately plays the buffer (`playAudioBuffer` sets `currentAudioSource` and
calls `source.start(0)`) — the flag and queue are NOT re-checked between the
decode await and the play.  A decode error is logged and skipped.  `onended`
clears `currentAudioSource` and resumes the loop.  Exiting runs the `finally`
block, clearing `isPlayingAudio`. -/
def loopStep (s : VMState) : VMState × List PlayEvent :=
  match s.loop with
  | LoopPos.idle => (s, [])
  | LoopPos.checkTop =>
    match s.audioQueue with
    | f :: rest => ({ s with audioQueue := rest, loop := LoopPos.decoding f }, [])
    | [] =>
      if s.streamingComplete then
        ({ s with loop := LoopPos.idle, isPlayingAudio := false }, [])
      else
        ({ s with loop := LoopPos.sleeping }, [])
  | LoopPos.decoding f =>
    if f.decodable then
      ({ s with loop := LoopPos.playing f, currentAudioSource := some f },
        [PlayEvent.start f])
    else
      ({ s with loop := LoopPos.checkTop }, [])
  | LoopPos.playing f =>
    ({ s with loop := LoopPos.checkTop, currentAudioSource := none },
      [PlayEvent.finish f])
  | LoopPos.sleeping => ({ s with loop := LoopPos.checkTop }, [])

/-- Run the playback loop for `fuel` resumptions with no interleaved
handlers, collecting the playback events. -/
def loopRun : Nat → VMState → VMState × List PlayEvent
  | 0, s => (s, [])
  | n + 1, s =>
    ((loopRun n (loopStep s).1).1, (loopStep s).2 ++ (loopRun n (loopStep s).1).2)

/-- Inbound control events, one constructor per `message.type` handled by
`handleMessage` (payloads kept where they affect state). -/
inductive ControlMessage where
  | connected
  | partialTranscript (text : String)
  | transcript (text : String)
  | thinking
  | responseText (text : String)
  | audioStart
  | latencyMetric (ttfa : Nat)
  | audioComplete
  | interrupted
  | ready
  | errorEvent (message : String)
  | silenceWarning (message : String)
  | timeoutEvent (message : String)

/-- disconnect: close the socket, stop recording, stop playback, mark the
channel disconnected. -/
def disconnect (s : VMState) : VMState :=
  { stopAudioPlayback s with isConnected := false }

/-- handleMessage dispatch on `message.type` (`now` is `Date.now()`).  Field
updates follow the source; the `phase` ghost field follows the spec's
transition table since the source keeps no phase variable. -/
def handleMessage (s : VMState) (m : ControlMessage) (now : Nat) : VMState :=
  match m with
  | ControlMessage.connected => s
  | ControlMessage.partialTranscript _ => { s with phase := Phase.phUserSpeaking }
  | ControlMessage.transcript _ =>
    { s with
      lastSpeechEndTime := some now
      isUserSpeaking := false
      phase := Phase.phThinking }
  | ControlMessage.thinking => s
  | ControlMessage.responseText _ => s
  | ControlMessage.audioStart =>
    { s with
      responseStartTime := some now
      audioQueue := []
      streamingComplete := false
      phase := Phase.phAISpeaking }
  | ControlMessage.latencyMetric _ => s
  | ControlMessage.audioComplete => { s with streamingComplete := true }
  | ControlMessage.interrupted =>
    { stopAudioPlayback s with phase := Phase.phInterrupted }
  | ControlMessage.ready => { s with phase := Phase.phIdle }
  | ControlMessage.errorEvent _ =>
    { stopAudioPlayback s with phase := Phase.phIdle }
  | ControlMessage.silenceWarning _ => s
  | ControlMessage.timeoutEvent _ => disconnect s

/-- An outbound capture frame delivered by `MediaRecorder.ondataavailable`
(`size` is `event.data.size`). -/
structure CaptureFrame where
  size : Nat
deriving DecidableEq, Repr

/-- Outcome of the `ondataavailable` handler.  The handler body is a single
guarded `ws.send`: there is no recording/logging branch for the disconnected
case and no throwing path, so the last two fields are constantly false. -/
structure SendResult where
  transmitted : Bool
  recordedNotConnected : Bool
  exceptionEscaped : Bool
deriving DecidableEq, Repr

/-- ondataavailable: send the blob iff it is non-empty and the channel is
connected; otherwise the frame is silently dropped. -/
def ondataavailable (s : VMState) (f : CaptureFrame) : SendResult :=
  if 0 < f.size ∧ s.isConnected = true then
    { transmitted := true, recordedNotConnected := false, exceptionEscaped := false }
  else
    { transmitted := false, recordedNotConnected := false, exceptionEscaped := false }

/-- Exact number of loop resumptions needed to drain a queue and exit once
`streamingComplete` is set: shift, decode and play for a decodable frame
(3 steps), shift and failed decode for an undecodable one (2 steps), plus the
final empty-queue check that exits (1 step). -/
def loopFuel : List AudioFrame → Nat
  | [] => 1
  | f :: rest => (if f.decodable then 3 else 2) + loopFuel rest

theorem loopRun_idle (n : Nat) (s : VMState) (h : s.loop = LoopPos.idle) :
    loopRun n s = (s, []) := by
  induction n with
  | zero => rfl
  | succ n ih => simp [loopRun, loopStep, h, ih]

theorem loopRun_add (m n : Nat) (s : VMState) :
    loopRun (m + n) s =
      ((loopRun n (loopRun m s).1).1,
        (loopRun m s).2 ++ (loopRun n (loopRun m s).1).2) := by
  induction m generalizing s with
  | zero => simp [loopRun]
  | succ m ih =>
    have hadd : m + 1 + n = (m + n) + 1 := by omega
    rw [hadd]
    simp [loopRun, ih]

theorem loopStep_streamingComplete (s : VMState) :
    (loopStep s).1.streamingComplete = s.streamingComplete := by
  cases h : s.loop <;> simp [loopStep, h]
  · cases hq : s.audioQueue <;> simp
    cases hc : s.streamingComplete <;> simp
  · rename_i f
    cases hf : f.decodable <;> simp

theorem loopRun_drain (q : List AudioFrame) :
    ∀ s : VMState, s.audioQueue = q → s.streamingComplete = true →
    s.loop = LoopPos.checkTop →
    startsOf (loopRun (loopFuel q) s).2 = q.filter (fun f => f.decodable)
      ∧ (loopRun (loopFuel q) s).1.loop = LoopPos.idle
      ∧ (loopRun (loopFuel q) s).1.isPlayingAudio = false
      ∧ (loopRun (loopFuel q) s).1.audioQueue = [] := by
  induction q with
  | nil =>
    intro s hq hc hl
    simp [loopFuel, loopRun, loopStep, hq, hc, hl, startsOf]
  | cons f rest ih =>
    intro s hq hc hl
    cases hf : f.decodable
    · -- decode failure: shift + failed decode, then drain the rest
      have hfuel : loopFuel (f :: rest) = 2 + loopFuel rest := by
        simp [loopFuel, hf]
      rw [hfuel, loopRun_add]
      have h2 : loopRun 2 s =
          ({ s with audioQueue := rest, loop := LoopPos.checkTop }, []) := by
        simp [loopRun, loopStep, hq, hl, hf]
      rw [h2]
      have := ih { s with audioQueue := rest, loop := LoopPos.checkTop }
        (by simp) (by simp [hc]) (by simp)
      simp [startsOf] at this ⊢
      simp [List.filter_cons, hf, this.1, this.2.1, this.2.2]
    · -- decodable: shift + decode + play, then drain the rest
      have hfuel : loopFuel (f :: rest) = 3 + loopFuel rest := by
        simp [loopFuel, hf]
      rw [hfuel, loopRun_add]
      have h3 : loopRun 3 s = ({ s with audioQueue := rest, loop := LoopPos.checkTop, currentAudioSource := none }, [PlayEvent.start f, PlayEvent.finish f]) := by
        simp [loopRun, loopStep, hq, hl, hf]
      rw [h3]
      have := ih { s with audioQueue := rest, loop := LoopPos.checkTop, currentAudioSource := none } (by simp) (by simp [hc]) (by simp)
      simp [startsOf] at this ⊢
      simp [List.filter_cons, hf, this.1, this.2.1, this.2.2]

/-- Extra fuel after the loop has exited is a no-op. -/
theorem loopRun_pad (m n : Nat) (s : VMState)
    (h : (loopRun m s).1.loop = LoopPos.idle) :
    loopRun (m + n) s = loopRun m s := by
  rw [loopRun_add, loopRun_idle n (loopRun m s).1 h]
  simp

/-- Interleavable events of the single-threaded browser event loop that the
playback path sees: arrival of a binary frame (runs `handleAudioChunk` to
completion) or one resumption of the suspended playback loop. -/
inductive VMEvent where
  | chunk (f : AudioFrame)
  | tick

/-- One event of the browser event loop, with the playback events it emits. -/
def stepEvent (s : VMState) : VMEvent → VMState × List PlayEvent
  | VMEvent.chunk f => (handleAudioChunk s f, [])
  | VMEvent.tick => loopStep s

/-- Run a sequence of interleaved events, collecting the playback trace. -/
def runEvents : VMState → List VMEvent → VMState × List PlayEvent
  | s, [] => (s, [])
  | s, e :: es =>
    ((runEvents (stepEvent s e).1 es).1,
      (stepEvent s e).2 ++ (runEvents (stepEvent s e).1 es).2)

/-- Frames delivered to `handleAudioChunk` in an event sequence, in arrival
order. -/
def arrivals : List VMEvent → List AudioFrame
  | [] => []
  | VMEvent.chunk f :: es => f :: arrivals es
  | VMEvent.tick :: es => arrivals es

/-- Frames not yet handed to the decoder: the frame whose decode is pending,
followed by the queued frames. -/
def pendingFrames (s : VMState) : List AudioFrame :=
  (match s.loop with
   | LoopPos.decoding f => [f]
   | _ => []) ++ s.audioQueue

/-- Guard correctness: `isPlayingAudio` is set exactly while a playback-loop
task is live, so `handleAudioChunk` never starts a second concurrent loop. -/
def loopFlagInv (s : VMState) : Prop :=
  s.isPlayingAudio = true ↔ s.loop ≠ LoopPos.idle

/-- Whether a playback unit is currently audible (between `source.start(0)`
and its `onended`). -/
def playingB (s : VMState) : Bool :=
  match s.loop with
  | LoopPos.playing _ => true
  | _ => false

/-- Trace well-formedness automaton: starting from playback activity `b`, a
unit may start only when none is audible and finish only the audible one. -/
def okTrace : Bool → List PlayEvent → Bool
  | _, [] => true
  | false, PlayEvent.start _ :: r => okTrace true r
  | true, PlayEvent.finish _ :: r => okTrace false r
  | _, _ => false

/-- Central invariant of the interleaved system: from any state whose
playing-flag matches its loop position, any sequence of frame arrivals and
loop resumptions consumes a prefix of `pendingFrames s ++ arrivals es`,
starts playback of exactly the decodable frames of that prefix in order,
leaves the remaining suffix pending, preserves the guard invariant, and
emits a well-nested start/finish trace. -/
theorem runEvents_spec (es : List VMEvent) :
    ∀ s : VMState, loopFlagInv s →
    (∃ k, startsOf (runEvents s es).2 =
        ((pendingFrames s ++ arrivals es).take k).filter (fun f => f.decodable)
      ∧ pendingFrames (runEvents s es).1 = (pendingFrames s ++ arrivals es).drop k)
    ∧ loopFlagInv (runEvents s es).1
    ∧ okTrace (playingB s) (runEvents s es).2 = true := by
  induction es with
  | nil =>
    intro s hs
    refine ⟨⟨0, by simp [runEvents, startsOf, arrivals], by simp [runEvents, arrivals]⟩, hs, by simp [runEvents, okTrace]⟩
  | cons e es ih =>
    intro s hs
    cases e with
    | chunk f =>
      by_cases hp : s.isPlayingAudio = true
      · -- loop already running: frame is only appended
        have hstep : stepEvent s (VMEvent.chunk f) = ({ s with audioQueue := s.audioQueue ++ [f] }, []) := by
          simp [stepEvent, handleAudioChunk, hp]
        have hln : s.loop ≠ LoopPos.idle := hs.mp hp
        have hinv : loopFlagInv { s with audioQueue := s.audioQueue ++ [f] } := by
          simpa [loopFlagInv, hp] using hln
        have hpend : pendingFrames { s with audioQueue := s.audioQueue ++ [f] } = pendingFrames s ++ [f] := by
          simp [pendingFrames, List.append_assoc]
        obtain ⟨⟨k, hk1, hk2⟩, hinv2, hok⟩ := ih _ hinv
        refine ⟨⟨k, ?_, ?_⟩, ?_, ?_⟩
        · simpa [runEvents, hstep, startsOf, hpend, arrivals, List.append_assoc] using hk1
        · simpa [runEvents, hstep, hpend, arrivals, List.append_assoc] using hk2
        · simpa [runEvents, hstep] using hinv2
        · have hpb : playingB { s with audioQueue := s.audioQueue ++ [f] } = playingB s := by
            simp [playingB]
          simpa [runEvents, hstep, hpb] using hok
      · -- loop not running: frame appended and a fresh loop started
        have hp' : s.isPlayingAudio = false := by
          cases h : s.isPlayingAudio
          · rfl
          · exact absurd h hp
        have hli : s.loop = LoopPos.idle := by
          by_contra hne
          exact hp (hs.mpr hne)
        have hstep : stepEvent s (VMEvent.chunk f) = ({ s with audioQueue := s.audioQueue ++ [f], isPlayingAudio := true, loop := LoopPos.checkTop }, []) := by
          simp [stepEvent, handleAudioChunk, playAudioQueue, hp']
        have hinv : loopFlagInv { s with audioQueue := s.audioQueue ++ [f], isPlayingAudio := true, loop := LoopPos.checkTop } := by
          simp [loopFlagInv]
        have hpend : pendingFrames { s with audioQueue := s.audioQueue ++ [f], isPlayingAudio := true, loop := LoopPos.checkTop } = pendingFrames s ++ [f] := by
          simp [pendingFrames, hli, List.append_assoc]
        obtain ⟨⟨k, hk1, hk2⟩, hinv2, hok⟩ := ih _ hinv
        refine ⟨⟨k, ?_, ?_⟩, ?_, ?_⟩
        · simpa [runEvents, hstep, startsOf, hpend, arrivals, List.append_assoc] using hk1
        · simpa [runEvents, hstep, hpend, arrivals, List.append_assoc] using hk2
        · simpa [runEvents, hstep] using hinv2
        · have hpb : playingB { s with audioQueue := s.audioQueue ++ [f], isPlayingAudio := true, loop := LoopPos.checkTop } = playingB s := by
            simp [playingB, hli]
          simpa [runEvents, hstep, hpb] using hok
    | tick =>
      cases hl : s.loop with
      | idle =>
        have hstep : stepEvent s VMEvent.tick = (s, []) := by
          simp [stepEvent, loopStep, hl]
        obtain ⟨⟨k, hk1, hk2⟩, hinv2, hok⟩ := ih s hs
        exact ⟨⟨k, by simpa [runEvents, hstep, arrivals] using hk1,
          by simpa [runEvents, hstep, arrivals] using hk2⟩,
          by simpa [runEvents, hstep] using hinv2,
          by simpa [runEvents, hstep] using hok⟩
      | checkTop =>
        have hplay : s.isPlayingAudio = true := hs.mpr (by simp [hl])
        cases hq : s.audioQueue with
        | cons f rest =>
          have hstep : stepEvent s VMEvent.tick = ({ s with audioQueue := rest, loop := LoopPos.decoding f }, []) := by
            simp [stepEvent, loopStep, hl, hq]
          have hinv : loopFlagInv { s with audioQueue := rest, loop := LoopPos.decoding f } := by
            simp [loopFlagInv, hplay]
          have hpend : pendingFrames { s with audioQueue := rest, loop := LoopPos.decoding f } = pendingFrames s := by
            simp [pendingFrames, hl, hq]
          obtain ⟨⟨k, hk1, hk2⟩, hinv2, hok⟩ := ih _ hinv
          refine ⟨⟨k, ?_, ?_⟩, ?_, ?_⟩
          · simpa [runEvents, hstep, startsOf, hpend, arrivals] using hk1
          · simpa [runEvents, hstep, hpend, arrivals] using hk2
          · simpa [runEvents, hstep] using hinv2
          · have hpb : playingB { s with audioQueue := rest, loop := LoopPos.decoding f } = playingB s := by
              simp [playingB, hl]
            simpa [runEvents, hstep, hpb] using hok
        | nil =>
          cases hc : s.streamingComplete
          · -- queue empty, backend not done: sleep and re-poll
            have hstep : stepEvent s VMEvent.tick = ({ s with loop := LoopPos.sleeping }, []) := by
              simp [stepEvent, loopStep, hl, hq, hc]
            have hinv : loopFlagInv { s with loop := LoopPos.sleeping } := by
              simp [loopFlagInv, hplay]
            have hpend : pendingFrames { s with loop := LoopPos.sleeping } = pendingFrames s := by
              simp [pendingFrames, hl]
            obtain ⟨⟨k, hk1, hk2⟩, hinv2, hok⟩ := ih _ hinv
            refine ⟨⟨k, ?_, ?_⟩, ?_, ?_⟩
            · simpa [runEvents, hstep, startsOf, hpend, arrivals] using hk1
            · simpa [runEvents, hstep, hpend, arrivals] using hk2
            · simpa [runEvents, hstep] using hinv2
            · have hpb : playingB { s with loop := LoopPos.sleeping } = playingB s := by
                simp [playingB, hl]
              simpa [runEvents, hstep, hpb] using hok
          · -- queue empty, backend done: exit the loop
            have hstep : stepEvent s VMEvent.tick = ({ s with loop := LoopPos.idle, isPlayingAudio := false }, []) := by
              simp [stepEvent, loopStep, hl, hq, hc]
            have hinv : loopFlagInv { s with loop := LoopPos.idle, isPlayingAudio := false } := by
              simp [loopFlagInv]
            have hpend : pendingFrames { s with loop := LoopPos.idle, isPlayingAudio := false } = pendingFrames s := by
              simp [pendingFrames, hl]
            obtain ⟨⟨k, hk1, hk2⟩, hinv2, hok⟩ := ih _ hinv
            refine ⟨⟨k, ?_, ?_⟩, ?_, ?_⟩
            · simpa [runEvents, hstep, startsOf, hpend, arrivals] using hk1
            · simpa [runEvents, hstep, hpend, arrivals] using hk2
            · simpa [runEvents, hstep] using hinv2
            · have hpb : playingB { s with loop := LoopPos.idle, isPlayingAudio := false } = playingB s := by
                simp [playingB, hl]
              simpa [runEvents, hstep, hpb] using hok
      | decoding f =>
        have hplay : s.isPlayingAudio = true := hs.mpr (by simp [hl])
        cases hf : f.decodable
        · -- decode failure: frame consumed, nothing audible
          have hstep : stepEvent s VMEvent.tick = ({ s with loop := LoopPos.checkTop }, []) := by
            simp [stepEvent, loopStep, hl, hf]
          have hinv : loopFlagInv { s with loop := LoopPos.checkTop } := by
            simp [loopFlagInv, hplay]
          obtain ⟨⟨k, hk1, hk2⟩, hinv2, hok⟩ := ih _ hinv
          refine ⟨⟨k + 1, ?_, ?_⟩, ?_, ?_⟩
          · have : pendingFrames s ++ arrivals (VMEvent.tick :: es) = f :: (pendingFrames { s with loop := LoopPos.checkTop } ++ arrivals es) := by
              simp [pendingFrames, hl, arrivals]
            rw [this, List.take_succ_cons, List.filter_cons_of_neg (by simp [hf])]
            simpa [runEvents, hstep, startsOf] using hk1
          · have : pendingFrames s ++ arrivals (VMEvent.tick :: es) = f :: (pendingFrames { s with loop := LoopPos.checkTop } ++ arrivals es) := by
              simp [pendingFrames, hl, arrivals]
            rw [this, List.drop_succ_cons]
            simpa [runEvents, hstep] using hk2
          · simpa [runEvents, hstep] using hinv2
          · have hpb : playingB { s with loop := LoopPos.checkTop } = playingB s := by
              simp [playingB, hl]
            simpa [runEvents, hstep, hpb] using hok
        · -- decode success: the unit becomes audible now
          have hstep : stepEvent s VMEvent.tick = ({ s with loop := LoopPos.playing f, currentAudioSource := some f }, [PlayEvent.start f]) := by
            simp [stepEvent, loopStep, hl, hf]
          have hinv : loopFlagInv { s with loop := LoopPos.playing f, currentAudioSource := some f } := by
            simp [loopFlagInv, hplay]
          obtain ⟨⟨k, hk1, hk2⟩, hinv2, hok⟩ := ih _ hinv
          refine ⟨⟨k + 1, ?_, ?_⟩, ?_, ?_⟩
          · have harr : pendingFrames s ++ arrivals (VMEvent.tick :: es) = f :: (pendingFrames { s with loop := LoopPos.playing f, currentAudioSource := some f } ++ arrivals es) := by
              simp [pendingFrames, hl, arrivals]
            rw [harr, List.take_succ_cons, List.filter_cons_of_pos (by simp [hf])]
            simp only [runEvents, hstep, startsOf, List.filterMap_cons]
            simpa [startsOf] using hk1
          · have harr : pendingFrames s ++ arrivals (VMEvent.tick :: es) = f :: (pendingFrames { s with loop := LoopPos.playing f, currentAudioSource := some f } ++ arrivals es) := by
              simp [pendingFrames, hl, arrivals]
            rw [harr, List.drop_succ_cons]
            simpa [runEvents, hstep] using hk2
          · simpa [runEvents, hstep] using hinv2
          · have hpb : playingB { s with loop := LoopPos.playing f, currentAudioSource := some f } = true := by
              simp [playingB]
            have hps : playingB s = false := by
              simp [playingB, hl]
            have hok2 : okTrace true (runEvents { s with loop := LoopPos.playing f, currentAudioSource := some f } es).2 = true := by
              simpa [hpb] using hok
            simp [runEvents, hstep, hps, okTrace, hok2]
      | playing f =>
        have hplay : s.isPlayingAudio = true := hs.mpr (by simp [hl])
        have hstep : stepEvent s VMEvent.tick = ({ s with loop := LoopPos.checkTop, currentAudioSource := none }, [PlayEvent.finish f]) := by
          simp [stepEvent, loopStep, hl]
        have hinv : loopFlagInv { s with loop := LoopPos.checkTop, currentAudioSource := none } := by
          simp [loopFlagInv, hplay]
        have hpend : pendingFrames { s with loop := LoopPos.checkTop, currentAudioSource := none } = pendingFrames s := by
          simp [pendingFrames, hl]
        obtain ⟨⟨k, hk1, hk2⟩, hinv2, hok⟩ := ih _ hinv
        refine ⟨⟨k, ?_, ?_⟩, ?_, ?_⟩
        · simp only [runEvents, hstep, startsOf, List.filterMap_cons]
          simpa [startsOf, hpend, arrivals] using hk1
        · simpa [runEvents, hstep, hpend, arrivals] using hk2
        · simpa [runEvents, hstep] using hinv2
        · have hpb : playingB { s with loop := LoopPos.checkTop, currentAudioSource := none } = false := by
            simp [playingB]
          have hps : playingB s = true := by
            simp [playingB, hl]
          have hok2 : okTrace false (runEvents { s with loop := LoopPos.checkTop, currentAudioSource := none } es).2 = true := by
            simpa [hpb] using hok
          simp [runEvents, hstep, hps, okTrace, hok2]
      | sleeping =>
        have hplay : s.isPlayingAudio = true := hs.mpr (by simp [hl])
        have hstep : stepEvent s VMEvent.tick = ({ s with loop := LoopPos.checkTop }, []) := by
          simp [stepEvent, loopStep, hl]
        have hinv : loopFlagInv { s with loop := LoopPos.checkTop } := by
          simp [loopFlagInv, hplay]
        have hpend : pendingFrames { s with loop := LoopPos.checkTop } = pendingFrames s := by
          simp [pendingFrames, hl]
        obtain ⟨⟨k, hk1, hk2⟩, hinv2, hok⟩ := ih _ hinv
        refine ⟨⟨k, ?_, ?_⟩, ?_, ?_⟩
        · simpa [runEvents, hstep, startsOf, hpend, arrivals] using hk1
        · simpa [runEvents, hstep, hpend, arrivals] using hk2
        · simpa [runEvents, hstep] using hinv2
        · have hpb : playingB { s with loop := LoopPos.checkTop } = playingB s := by
            simp [playingB, hl]
          simpa [runEvents, hstep, hpb] using hok

theorem loopRun_not_idle (n : Nat) :
    ∀ s : VMState, s.streamingComplete = false → s.loop ≠ LoopPos.idle →
    (loopRun n s).1.loop ≠ LoopPos.idle := by
  induction n with
  | zero => intro s _ h2; simpa [loopRun] using h2
  | succ n ih =>
    intro s h1 h2
    have hstep1 : (loopStep s).1.streamingComplete = false := by
      rw [loopStep_streamingComplete]; exact h1
    have hstep2 : (loopStep s).1.loop ≠ LoopPos.idle := by
      cases hl : s.loop
      case idle => exact absurd hl h2
      case checkTop =>
        cases hq : s.audioQueue
        · simp [loopStep, hl, hq, h1]
        · simp [loopStep, hl, hq]
      case decoding f => cases hf : f.decodable <;> simp [loopStep, hl, hf]
      case playing f => simp [loopStep, hl]
      case sleeping => simp [loopStep, hl]
    simpa [loopRun] using ih _ hstep1 hstep2

/-- Frame whose decode was pending at the instant `stopAudioPlayback` ran,
provided that decode succeeds: this single unit is still played. -/
def midDecodeFrame (s : VMState) : List AudioFrame :=
  match s.loop with
  | LoopPos.decoding f => if f.decodable then [f] else []
  | _ => []

/-- Concrete decodable frame used in counterexamples and witnesses. -/
def goodFrame : AudioFrame := { data := 1, decodable := true }

/-- Concrete frame whose decode fails. -/
def badFrame : AudioFrame := { data := 0, decodable := false }

/-- Engine state in which the playback loop has shifted `goodFrame` off the
queue and is suspended awaiting its `decodeAudioData`. -/
def midDecodeState : VMState :=
  { audioQueue := []
    isPlayingAudio := true
    streamingComplete := false
    currentAudioSource := none
    isConnected := true
    responseStartTime := none
    lastSpeechEndTime := none
    isUserSpeaking := false
    loop := LoopPos.decoding goodFrame
    phase := Phase.phAISpeaking }

/-- C1 counterexample: with the decode of a previously queued frame pending,
`stopAudioPlayback` returns (queue cleared, completion flag forced, playing
flag cleared), yet the very next resumption of the suspended loop starts
audible playback of that frame — audio from the interrupted turn plays after
`stop()` returned, refuting the claim. -/
theorem stop_pending_decode_cex :
    (stopAudioPlayback midDecodeState).audioQueue = []
    ∧ (stopAudioPlayback midDecodeState).streamingComplete = true
    ∧ (stopAudioPlayback midDecodeState).isPlayingAudio = false
    ∧ (loopStep (stopAudioPlayback midDecodeState)).2 = [PlayEvent.start goodFrame] := by
  decide

/-- C1 (amended): once `stopAudioPlayback` returns, no frame that was queued
at the time of the call is ever played and the loop exits with an empty
queue; the sole exception is the frame whose decode was already in flight,
which is still played once when its decode resolves (the loop plays the
decoded buffer before re-checking the cleared queue and flag). -/
theorem stop_halts_playback (s : VMState) (n : Nat) :
    startsOf (loopRun (3 + n) (stopAudioPlayback s)).2 = midDecodeFrame s
    ∧ (loopRun (3 + n) (stopAudioPlayback s)).1.loop = LoopPos.idle
    ∧ (loopRun (3 + n) (stopAudioPlayback s)).1.audioQueue = [] := by
  have key : startsOf (loopRun 3 (stopAudioPlayback s)).2 = midDecodeFrame s
      ∧ (loopRun 3 (stopAudioPlayback s)).1.loop = LoopPos.idle
      ∧ (loopRun 3 (stopAudioPlayback s)).1.audioQueue = [] := by
    cases hl : s.loop
    case idle =>
      refine ⟨?_, ?_, ?_⟩ <;>
        simp [loopRun, loopStep, stopAudioPlayback, hl, midDecodeFrame, startsOf]
    case checkTop =>
      refine ⟨?_, ?_, ?_⟩ <;>
        simp [loopRun, loopStep, stopAudioPlayback, hl, midDecodeFrame, startsOf]
    case decoding f =>
      cases hf : f.decodable <;>
        (refine ⟨?_, ?_, ?_⟩ <;>
          simp [loopRun, loopStep, stopAudioPlayback, hl, hf, midDecodeFrame, startsOf])
    case playing f =>
      refine ⟨?_, ?_, ?_⟩ <;>
        simp [loopRun, loopStep, stopAudioPlayback, hl, midDecodeFrame, startsOf]
    case sleeping =>
      refine ⟨?_, ?_, ?_⟩ <;>
        simp [loopRun, loopStep, stopAudioPlayback, hl, midDecodeFrame, startsOf]
  rw [loopRun_pad 3 n _ key.2.1]
  exact key

/-- C2: playback starts follow frame arrival order exactly — from the
constructor state, any interleaving of frame arrivals with loop resumptions
starts the decodable frames of a consumed prefix of the arrival sequence, in
that order — and the start/finish trace is well nested, so at no instant are
two playback units audible concurrently. -/
theorem frames_played_in_order_no_overlap (es : List VMEvent) :
    (∃ k, startsOf (runEvents initialState es).2 =
        ((arrivals es).take k).filter (fun f => f.decodable))
    ∧ okTrace false (runEvents initialState es).2 = true := by
  obtain ⟨⟨k, hk1, _⟩, _, hok⟩ :=
    runEvents_spec es initialState (by simp [loopFlagInv, initialState])
  have hpend : pendingFrames initialState = [] := by
    simp [pendingFrames, initialState]
  have hpb : playingB initialState = false := by
    simp [playingB, initialState]
  exact ⟨⟨k, by simpa [hpend] using hk1⟩, by simpa [hpb] using hok⟩

/-- C3: with the completion flag set and the queue empty, the loop exits on
its very next poll of the queue without playing anything; and while the flag
is unset a live loop never exits, no matter how many resumptions occur. -/
theorem playback_loop_termination :
    (∀ s : VMState, s.streamingComplete = true → s.audioQueue = [] →
        s.loop = LoopPos.checkTop →
        (loopRun 1 s).1.loop = LoopPos.idle ∧ (loopRun 1 s).2 = [])
    ∧ (∀ (s : VMState) (n : Nat), s.streamingComplete = false →
        s.loop ≠ LoopPos.idle → (loopRun n s).1.loop ≠ LoopPos.idle) := by
  constructor
  · intro s h1 h2 h3
    constructor <;> simp [loopRun, loopStep, h1, h2, h3]
  · intro s n h1 h2
    exact loopRun_not_idle n s h1 h2

/-- C3 witness: a drained completed loop exits in one poll; a loop whose
completion flag is unset is still live after five resumptions. -/
theorem playback_loop_termination_witness :
    ((loopRun 1 { initialState with streamingComplete := true, isPlayingAudio := true, loop := LoopPos.checkTop }).1.loop = LoopPos.idle
      ∧ (loopRun 1 { initialState with streamingComplete := true, isPlayingAudio := true, loop := LoopPos.checkTop }).2 = [])
    ∧ (loopRun 5 { initialState with isPlayingAudio := true, loop := LoopPos.sleeping }).1.loop ≠ LoopPos.idle :=
  ⟨playback_loop_termination.1 _ rfl rfl rfl,
    playback_loop_termination.2 _ 5 rfl (by decide)⟩

/-- C4: a frame whose decode fails is consumed without anything becoming
audible and the loop is back at the top of its `while` with the remaining
queue intact; moreover (completion flag set) the full drain still plays
every later decodable frame in order, so a failure never terminates the loop
nor blocks later frames. -/
theorem decode_failure_skipped (f : AudioFrame) (rest : List AudioFrame)
    (s : VMState) (hf : f.decodable = false) (hq : s.audioQueue = f :: rest)
    (hl : s.loop = LoopPos.checkTop) :
    ((loopRun 2 s).1.loop = LoopPos.checkTop
      ∧ (loopRun 2 s).1.audioQueue = rest
      ∧ (loopRun 2 s).2 = [])
    ∧ (s.streamingComplete = true →
        startsOf (loopRun (loopFuel (f :: rest)) s).2 =
          rest.filter (fun g => g.decodable)) := by
  constructor
  · refine ⟨?_, ?_, ?_⟩ <;> simp [loopRun, loopStep, hq, hl, hf]
  · intro hc
    have h := loopRun_drain (f :: rest) s hq hc hl
    rw [h.1]
    simp [List.filter_cons, hf]

/-- C4 witness: the undecodable head frame is skipped and the decodable
frame behind it still plays. -/
theorem decode_failure_skipped_witness :
    ((loopRun 2 { initialState with audioQueue := [badFrame, goodFrame], isPlayingAudio := true, streamingComplete := true, loop := LoopPos.checkTop }).1.loop = LoopPos.checkTop
      ∧ (loopRun 2 { initialState with audioQueue := [badFrame, goodFrame], isPlayingAudio := true, streamingComplete := true, loop := LoopPos.checkTop }).1.audioQueue = [goodFrame]
      ∧ (loopRun 2 { initialState with audioQueue := [badFrame, goodFrame], isPlayingAudio := true, streamingComplete := true, loop := LoopPos.checkTop }).2 = [])
    ∧ startsOf (loopRun (loopFuel [badFrame, goodFrame]) { initialState with audioQueue := [badFrame, goodFrame], isPlayingAudio := true, streamingComplete := true, loop := LoopPos.checkTop }).2 = [goodFrame] := by
  have h := decode_failure_skipped badFrame [goodFrame]
    { initialState with audioQueue := [badFrame, goodFrame], isPlayingAudio := true, streamingComplete := true, loop := LoopPos.checkTop }
    rfl rfl rfl
  refine ⟨h.1, ?_⟩
  have h2 := h.2 rfl
  simpa [goodFrame] using h2

/-- C5 counterexample: a non-empty capture frame delivered while the channel
is disconnected is dropped, but no NotConnected condition is recorded — the
handler's only branch is the guarded send, so the drop is silent, refuting
the recording part of the claim. -/
theorem send_disconnected_cex :
    (ondataavailable initialState { size := 1 }).transmitted = false
    ∧ (ondataavailable initialState { size := 1 }).recordedNotConnected = false := by
  decide

/-- C5 (amended): a capture frame delivered while the channel is
disconnected is dropped (not transmitted, not queued) and no exception
escapes the handler, but the drop is silent: no NotConnected condition is
recorded. -/
theorem send_while_disconnected (s : VMState) (f : CaptureFrame)
    (h : s.isConnected = false) :
    (ondataavailable s f).transmitted = false
    ∧ (ondataavailable s f).recordedNotConnected = false
    ∧ (ondataavailable s f).exceptionEscaped = false := by
  refine ⟨?_, ?_, ?_⟩ <;> simp [ondataavailable, h]

/-- C5 witness: a size-3 frame against the disconnected constructor state. -/
theorem send_while_disconnected_witness :
    (ondataavailable initialState { size := 3 }).transmitted = false
    ∧ (ondataavailable initialState { size := 3 }).recordedNotConnected = false
    ∧ (ondataavailable initialState { size := 3 }).exceptionEscaped = false :=
  send_while_disconnected initialState { size := 3 } rfl

/-- C6: while connected, every non-empty capture frame is transmitted,
whatever the rest of the state — in particular whatever `isPlayingAudio`,
the loop position and the phase say about the assistant currently speaking:
the handler's guard tests only the size and the connection flag. -/
theorem capture_not_gated_on_playback (s : VMState) (f : CaptureFrame)
    (h1 : 0 < f.size) (h2 : s.isConnected = true) :
    (ondataavailable s f).transmitted = true := by
  simp [ondataavailable, h1, h2]

/-- C6 witness: a frame is transmitted even while a playback unit is audible
and the phase is AISpeaking. -/
theorem capture_not_gated_witness :
    (ondataavailable { initialState with isConnected := true, isPlayingAudio := true, loop := LoopPos.playing goodFrame, phase := Phase.phAISpeaking } { size := 5 }).transmitted = true :=
  capture_not_gated_on_playback _ _ (by decide) rfl

/-- C7: `stopAudioPlayback` is idempotent — a second call produces exactly
the same state as one call — and any single call (in particular with no
playback active, since the state is arbitrary) leaves the observable end
state: empty queue, completion flag set, no in-flight source, playing flag
cleared. -/
theorem stopAudioPlayback_idempotent (s : VMState) :
    stopAudioPlayback (stopAudioPlayback s) = stopAudioPlayback s
    ∧ (stopAudioPlayback s).audioQueue = []
    ∧ (stopAudioPlayback s).streamingComplete = true
    ∧ (stopAudioPlayback s).currentAudioSource = none
    ∧ (stopAudioPlayback s).isPlayingAudio = false :=
  ⟨rfl, rfl, rfl, rfl, rfl⟩

/-- C8: handling `audio_start` in the Thinking phase marks the
response-start timestamp, resets the playback queue, clears the completion
flag and moves the phase to AISpeaking. -/
theorem audio_start_in_thinking (s : VMState) (now : Nat)
    (h : s.phase = Phase.phThinking) :
    (handleMessage s ControlMessage.audioStart now).responseStartTime = some now
    ∧ (handleMessage s ControlMessage.audioStart now).audioQueue = []
    ∧ (handleMessage s ControlMessage.audioStart now).streamingComplete = false
    ∧ (handleMessage s ControlMessage.audioStart now).phase = Phase.phAISpeaking :=
  ⟨rfl, rfl, rfl, rfl⟩

/-- C8 witness: `audio_start` at time 42 in a Thinking-phase state. -/
theorem audio_start_in_thinking_witness :
    (handleMessage { initialState with phase := Phase.phThinking } ControlMessage.audioStart 42).responseStartTime = some 42
    ∧ (handleMessage { initialState with phase := Phase.phThinking } ControlMessage.audioStart 42).audioQueue = []
    ∧ (handleMessage { initialState with phase := Phase.phThinking } ControlMessage.audioStart 42).streamingComplete = false
    ∧ (handleMessage { initialState with phase := Phase.phThinking } ControlMessage.audioStart 42).phase = Phase.phAISpeaking :=
  audio_start_in_thinking { initialState with phase := Phase.phThinking } 42 rfl

/-- C9: `handleAudioChunk` appends every arriving frame to the queue no
matter what the phase, flags or queue say; if the loop is not running it
starts one; and a decodable frame arriving alone — in particular after the
loop already exited because the completion flag was set — is played. -/
theorem chunk_always_enqueued (s : VMState) (f : AudioFrame) :
    (handleAudioChunk s f).audioQueue = s.audioQueue ++ [f]
    ∧ (s.isPlayingAudio = false → (handleAudioChunk s f).loop = LoopPos.checkTop)
    ∧ (s.isPlayingAudio = false → s.audioQueue = [] → f.decodable = true →
        startsOf (loopRun 4 (handleAudioChunk s f)).2 = [f]) := by
  refine ⟨?_, ?_, ?_⟩
  · cases hp : s.isPlayingAudio <;>
      simp [handleAudioChunk, playAudioQueue, hp]
  · intro hp
    simp [handleAudioChunk, playAudioQueue, hp]
  · intro hp hq hf
    cases hc : s.streamingComplete <;>
      simp [handleAudioChunk, playAudioQueue, hp, hq, hf, hc, loopRun, loopStep, startsOf]

/-- C9 witness: a frame arriving after `audio_complete` ended the previous
loop (flag still set, queue empty, no loop task) is enqueued, a fresh loop
starts, and the frame is played. -/
theorem chunk_always_enqueued_witness :
    (handleAudioChunk { initialState with streamingComplete := true } goodFrame).audioQueue = [goodFrame]
    ∧ (handleAudioChunk { initialState with streamingComplete := true } goodFrame).loop = LoopPos.checkTop
    ∧ startsOf (loopRun 4 (handleAudioChunk { initialState with streamingComplete := true } goodFrame)).2 = [goodFrame] := by
  have h := chunk_always_enqueued { initialState with streamingComplete := true } goodFrame
  exact ⟨by simpa using h.1, h.2.1 rfl, h.2.2 rfl rfl rfl⟩

/-- C10: `playAudioQueue` called while a previous invocation holds the
`isPlayingAudio` guard returns at once with the state unchanged — no frame
is removed and no playback starts. -/
theorem playAudioQueue_reentrant_guard (s : VMState)
    (h : s.isPlayingAudio = true) :
    playAudioQueue s = s := by
  simp [playAudioQueue, h]

/-- C10 witness: a second call against a state whose guard is held. -/
theorem playAudioQueue_reentrant_guard_witness :
    playAudioQueue { initialState with isPlayingAudio := true, loop := LoopPos.sleeping } = { initialState with isPlayingAudio := true, loop := LoopPos.sleeping } :=
  playAudioQueue_reentrant_guard { initialState with isPlayingAudio := true, loop := LoopPos.sleeping } rfl

end SmartScheduler
